import Mathlib

/-!
Verification of the `capydb` client-side codec and operation facade
(`src/capydb/_collection.py`), as a shallow embedding in Lean 4.

The `Value` type below models every Python runtime value the codec can
meet: JSON scalars, ordered dictionaries (assoc lists, preserving key
order), lists, the BSON extension objects (`bson.ObjectId`,
`datetime.datetime`, `bson.Decimal128`, `bson.Binary`, `bson.Regex`,
`bson.Code`, `bson.Timestamp`, `bson.MinKey`, `bson.MaxKey`), the
embedding placeholders `EmbText` / `EmbImage`, and `vUnsupported` for a
Python value of any other type (e.g. a `set`).

Abstractions used (documented per definition): a `datetime` is
represented by its ISO-8601 string (`isoformat` / `fromisoformat` is
injective), a `Decimal128` and an `ObjectId` by their `str` form, a
`Binary` by its decoded byte list, a `Regex` by pattern and integer
flags.  Python exceptions become `Except` errors.
-/

namespace CapyDB

/-- A Python runtime value visible to the codec in `_collection.py`. -/
inductive Value where
  | vnull
  | vbool (b : Bool)
  | vint (n : Int)
  | vfloat (bits : Nat)
  | vstr (s : String)
  | vdoc (entries : List (String × Value))
  | vlist (items : List Value)
  | vObjectId (oid : String)
  | vDateTime (iso : String)
  | vDecimal (digits : String)
  | vBinary (bytes : List Nat)
  | vRegex (pattern : String) (flags : Int)
  | vCode (code : String)
  | vTimestamp (t i : Int)
  | vMinKey
  | vMaxKey
  | vEmbText (payload : Value)
  | vEmbImage (payload : Value)
  | vUnsupported (pyType : String)

/-- Errors raised by the codec (`TypeError` for unsupported types in
`__serialize` / `__deserialize`, and payload-shape failures such as a
`KeyError` or a constructor rejecting its argument). -/
inductive CodecErr where
  | unsupportedSer (pyType : String)
  | unsupportedDeser
  | badPayload (tag : String)
deriving DecidableEq, Repr

/-- Python `dict` lookup `d.get(k)` on an ordered dict modelled as an
assoc list (first matching key wins; real dicts have unique keys). -/
def getField : List (String × Value) → String → Option Value
  | [], _ => none
  | (k, v) :: rest, key => if k = key then some v else getField rest key

/-- Python `k in d` membership test. -/
def hasKey (d : List (String × Value)) (key : String) : Bool :=
  (getField d key).isSome

/-! ### Hex encoding (`bytes.hex` / `bytes.fromhex`)

`Binary.hex()` emits two lowercase hex digits per byte;
`bytes.fromhex` accepts upper- or lowercase digits (we restrict the
model to whitespace-free input, the only shape the codec produces). -/

/-- Lowercase hex digit for a nibble, as emitted by `bytes.hex`. -/
def hexDigit (n : Nat) : Char :=
  Char.ofNat (if n < 10 then 48 + n else 87 + n)

/-- Uppercase hex digit (used only to state case-insensitive decoding). -/
def hexDigitUpper (n : Nat) : Char :=
  Char.ofNat (if n < 10 then 48 + n else 55 + n)

/-- Value of one hex digit, accepting both cases as `bytes.fromhex` does. -/
def hexDigitVal (c : Char) : Option Nat :=
  if 48 ≤ c.toNat ∧ c.toNat ≤ 57 then some (c.toNat - 48)
  else if 97 ≤ c.toNat ∧ c.toNat ≤ 102 then some (c.toNat - 87)
  else if 65 ≤ c.toNat ∧ c.toNat ≤ 70 then some (c.toNat - 55)
  else none

def hexEncodeChars : List Nat → List Char
  | [] => []
  | b :: rest => hexDigit (b / 16) :: hexDigit (b % 16) :: hexEncodeChars rest

def hexEncodeCharsUpper : List Nat → List Char
  | [] => []
  | b :: rest => hexDigitUpper (b / 16) :: hexDigitUpper (b % 16) :: hexEncodeCharsUpper rest

/-- `bytes.hex()`: lowercase hex string of a byte list. -/
def hexEncode (bs : List Nat) : String := ⟨hexEncodeChars bs⟩

/-- The same byte list rendered with uppercase hex digits. -/
def hexEncodeUpper (bs : List Nat) : String := ⟨hexEncodeCharsUpper bs⟩

def hexDecodeChars : List Char → Option (List Nat)
  | [] => some []
  | [_] => none
  | c1 :: c2 :: rest => do
      let hi ← hexDigitVal c1
      let lo ← hexDigitVal c2
      let tail ← hexDecodeChars rest
      pure ((hi * 16 + lo) :: tail)

/-- `bytes.fromhex`: decode a (whitespace-free) hex string to bytes. -/
def hexDecode (s : String) : Option (List Nat) := hexDecodeChars s.data

/-! ### Embedding placeholders

`EmbText` / `EmbImage` live in `._emb_json._emb_text` /
`._emb_json._emb_image`, which are not part of the given sources; only
their `to_json` / `from_json` contract is used by `_collection.py`.
Per the spec they are an abstract exporter/importer pair producing the
tagged wire form, with an opaque payload the codec never inspects. -/

/-- Modelled from the spec: `EmbText.to_json` exports the placeholder as
its tagged wire form, a Document with the single key `@embText` holding
the opaque embedding-construction payload.  (Source module
`_emb_json._emb_text` is missing from src/.) -/
def embTextToJson (payload : Value) : Value :=
  .vdoc [("@embText", payload)]

/-- Modelled from the spec: `EmbImage.to_json`, as for `EmbText` with
tag `@embImage`.  (Source module `_emb_json._emb_image` is missing from
src/.) -/
def embImageToJson (payload : Value) : Value :=
  .vdoc [("@embImage", payload)]

/-- Modelled from the spec: `EmbText.from_json` reconstructs the
placeholder from a wire Document carrying the `@embText` tag, inverting
`to_json`; it fails if the tag key is absent. -/
def embTextFromJson (d : List (String × Value)) : Except CodecErr Value :=
  match getField d "@embText" with
  | some p => .ok p
  | none => .error (.badPayload "@embText")

/-- Modelled from the spec: `EmbImage.from_json`, as for `EmbText`. -/
def embImageFromJson (d : List (String × Value)) : Except CodecErr Value :=
  match getField d "@embImage" with
  | some p => .ok p
  | none => .error (.badPayload "@embImage")

/-! ### Serialization (`Collection.__serialize` and `BSON_SERIALIZERS`) -/

mutual

/-- `Collection.__serialize`: scalars pass through; dicts and lists
recurse; `EmbText` / `EmbImage` delegate to their `to_json`; each BSON
type maps to its tagged Document per `BSON_SERIALIZERS`; anything else
raises `TypeError` (modelled as `CodecErr.unsupportedSer`). -/
def serialize : Value → Except CodecErr Value
  | .vnull => .ok .vnull
  | .vbool b => .ok (.vbool b)
  | .vint n => .ok (.vint n)
  | .vfloat x => .ok (.vfloat x)
  | .vstr s => .ok (.vstr s)
  | .vdoc d => (serializeEntries d).map .vdoc
  | .vlist l => (serializeItems l).map .vlist
  | .vEmbText p => .ok (embTextToJson p)
  | .vEmbImage p => .ok (embImageToJson p)
  | .vObjectId s => .ok (.vdoc [("$oid", .vstr s)])
  | .vDateTime iso => .ok (.vdoc [("$date", .vstr iso)])
  | .vDecimal s => .ok (.vdoc [("$numberDecimal", .vstr s)])
  | .vBinary bs => .ok (.vdoc [("$binary", .vstr (hexEncode bs))])
  | .vRegex p f => .ok (.vdoc [("$regex", .vstr p), ("$options", .vint f)])
  | .vCode s => .ok (.vdoc [("$code", .vstr s)])
  | .vTimestamp t i =>
      .ok (.vdoc [("$timestamp", .vdoc [("t", .vint t), ("i", .vint i)])])
  | .vMinKey => .ok (.vdoc [("$minKey", .vint 1)])
  | .vMaxKey => .ok (.vdoc [("$maxKey", .vint 1)])
  | .vUnsupported t => .error (.unsupportedSer t)

/-- The dict comprehension `{k: self.__serialize(v) for k, v in value.items()}`. -/
def serializeEntries : List (String × Value) → Except CodecErr (List (String × Value))
  | [] => .ok []
  | (k, v) :: rest => do
      let sv ← serialize v
      let srest ← serializeEntries rest
      pure ((k, sv) :: srest)

/-- The list comprehension `[self.__serialize(item) for item in value]`. -/
def serializeItems : List Value → Except CodecErr (List Value)
  | [] => .ok []
  | v :: rest => do
      let sv ← serialize v
      let srest ← serializeItems rest
      pure (sv :: srest)

end

/-! ### Deserialization (`Collection.__deserialize`)

Tag payload decoders.  Each mirrors the constructor call in the
corresponding branch of `__deserialize`; a payload the Python
constructor would reject (wrong runtime type) is `CodecErr.badPayload`.
Abstractions: `ObjectId`, `datetime.fromisoformat`, `Decimal128` and
`Code` accept any string (their Python content validation is not
modelled; every concrete input used in a theorem below is valid for
them). -/

/-- Python `key.startswith("$")`: the key's first character is `$`. -/
def startsDollar (s : String) : Bool :=
  match s.data with
  | [] => false
  | c :: _ => c == '$'

/-- `ObjectId(value["$oid"])`. -/
def decodeOid (whole : List (String × Value)) : Except CodecErr Value :=
  match getField whole "$oid" with
  | some (.vstr s) => .ok (.vObjectId s)
  | _ => .error (.badPayload "$oid")

/-- `datetime.fromisoformat(value["$date"])`. -/
def decodeDate (whole : List (String × Value)) : Except CodecErr Value :=
  match getField whole "$date" with
  | some (.vstr s) => .ok (.vDateTime s)
  | _ => .error (.badPayload "$date")

/-- `Decimal128(value["$numberDecimal"])`. -/
def decodeDecimal (whole : List (String × Value)) : Except CodecErr Value :=
  match getField whole "$numberDecimal" with
  | some (.vstr s) => .ok (.vDecimal s)
  | _ => .error (.badPayload "$numberDecimal")

/-- `Binary(bytes.fromhex(value["$binary"]))`. -/
def decodeBinary (whole : List (String × Value)) : Except CodecErr Value :=
  match getField whole "$binary" with
  | some (.vstr s) =>
      match hexDecode s with
      | some bs => .ok (.vBinary bs)
      | none => .error (.badPayload "$binary")
  | _ => .error (.badPayload "$binary")

/-- `Regex(value["$regex"], value.get("$options", 0))`. -/
def decodeRegex (whole : List (String × Value)) : Except CodecErr Value :=
  match getField whole "$regex" with
  | some (.vstr p) =>
      match getField whole "$options" with
      | some (.vint f) => .ok (.vRegex p f)
      | none => .ok (.vRegex p 0)
      | some _ => .error (.badPayload "$options")
  | _ => .error (.badPayload "$regex")

/-- `Code(value["$code"])`. -/
def decodeCode (whole : List (String × Value)) : Except CodecErr Value :=
  match getField whole "$code" with
  | some (.vstr s) => .ok (.vCode s)
  | _ => .error (.badPayload "$code")

/-- `Timestamp(value["$timestamp"]["t"], value["$timestamp"]["i"])`. -/
def decodeTimestamp (whole : List (String × Value)) : Except CodecErr Value :=
  match getField whole "$timestamp" with
  | some (.vdoc td) =>
      match getField td "t", getField td "i" with
      | some (.vint t), some (.vint i) => .ok (.vTimestamp t i)
      | _, _ => .error (.badPayload "$timestamp")
  | _ => .error (.badPayload "$timestamp")

/-- The body of the `for key in value:` loop of `__deserialize`,
scanning the key list in dict order.  The membership tests
`"@embText" in value` / `"@embImage" in value` and all payload lookups
go to `whole`, the full dict, exactly as in the source; a key that
matches no branch falls through to the next iteration.
Returns `none` when the loop finishes without returning. -/
def scanStep (whole : List (String × Value)) :
    List (String × Value) → Except CodecErr (Option Value)
  | [] => .ok none
  | (key, _) :: rest =>
      if hasKey whole "@embText" then
        (embTextFromJson whole).map (fun p => some (.vEmbText p))
      else if hasKey whole "@embImage" then
        (embImageFromJson whole).map (fun p => some (.vEmbImage p))
      else if startsDollar key then
        if key = "$oid" then (decodeOid whole).map some
        else if key = "$date" then (decodeDate whole).map some
        else if key = "$numberDecimal" then (decodeDecimal whole).map some
        else if key = "$binary" then (decodeBinary whole).map some
        else if key = "$regex" then (decodeRegex whole).map some
        else if key = "$code" then (decodeCode whole).map some
        else if key = "$timestamp" then (decodeTimestamp whole).map some
        else if key = "$minKey" then .ok (some .vMinKey)
        else if key = "$maxKey" then .ok (some .vMaxKey)
        else scanStep whole rest
      else scanStep whole rest

mutual

/-- `Collection.__deserialize`: a dict runs the tag scan and otherwise
decodes structurally key by key; lists recurse element-wise; `None` and
scalars pass through; any other runtime type raises `TypeError`
(modelled as `CodecErr.unsupportedDeser`). -/
def deserialize : Value → Except CodecErr Value
  | .vdoc d =>
      match scanStep d d with
      | .error e => .error e
      | .ok (some v) => .ok v
      | .ok none => (deserializeEntries d).map .vdoc
  | .vlist l => (deserializeItems l).map .vlist
  | .vnull => .ok .vnull
  | .vbool b => .ok (.vbool b)
  | .vint n => .ok (.vint n)
  | .vfloat x => .ok (.vfloat x)
  | .vstr s => .ok (.vstr s)
  | _ => .error .unsupportedDeser

/-- The dict comprehension `{k: self.__deserialize(v, depth + 1) ...}`. -/
def deserializeEntries :
    List (String × Value) → Except CodecErr (List (String × Value))
  | [] => .ok []
  | (k, v) :: rest => do
      let dv ← deserialize v
      let drest ← deserializeEntries rest
      pure ((k, dv) :: drest)

/-- The list comprehension `[self.__deserialize(item, depth + 1) ...]`. -/
def deserializeItems : List Value → Except CodecErr (List Value)
  | [] => .ok []
  | v :: rest => do
      let dv ← deserialize v
      let drest ← deserializeItems rest
      pure (dv :: drest)

end

/-! ### Spec-side description of the tag scan

Used to state claims about `__deserialize`'s dispatch; the theorems
below relate it to the loop translation `scanStep`. -/

/-- Membership in the nine `$`-tags of the extension table. -/
def isTagKey (k : String) : Bool :=
  k = "$oid" || k = "$date" || k = "$numberDecimal" || k = "$binary" ||
  k = "$regex" || k = "$code" || k = "$timestamp" || k = "$minKey" ||
  k = "$maxKey"

/-- The first key of the Document (in the Document's own key order)
that is one of the nine extension tags. -/
def firstTagKey (d : List (String × Value)) : Option String :=
  (d.find? (fun kv => isTagKey kv.1)).map (fun kv => kv.1)

/-- Decoding dispatch by tag name, over the whole Document. -/
def decodeByTag (whole : List (String × Value)) (tag : String) :
    Except CodecErr Value :=
  if tag = "$oid" then decodeOid whole
  else if tag = "$date" then decodeDate whole
  else if tag = "$numberDecimal" then decodeDecimal whole
  else if tag = "$binary" then decodeBinary whole
  else if tag = "$regex" then decodeRegex whole
  else if tag = "$code" then decodeCode whole
  else if tag = "$timestamp" then decodeTimestamp whole
  else if tag = "$minKey" then .ok .vMinKey
  else if tag = "$maxKey" then .ok .vMaxKey
  else .error (.badPayload tag)

/-! ### Classifying predicates on values -/

/-- The eleven ExtensionValue variants of the spec's table. -/
def isExtensionValue : Value → Bool
  | .vObjectId _ | .vDateTime _ | .vDecimal _ | .vBinary _ | .vRegex _ _
  | .vCode _ | .vTimestamp _ _ | .vMinKey | .vMaxKey
  | .vEmbText _ | .vEmbImage _ => true
  | _ => false

/-- Well-formedness of an extension value's payload: a `Binary` holds
bytes (each < 256); every other variant is unconstrained. -/
def extWF : Value → Bool
  | .vBinary bs => bs.all (fun b => b < 256)
  | _ => true

/-- A wire value shape the deserializer recognizes: scalar, mapping or
sequence. -/
def isWireShape : Value → Bool
  | .vnull | .vbool _ | .vint _ | .vfloat _ | .vstr _
  | .vdoc _ | .vlist _ => true
  | _ => false

mutual

/-- The value contains, on its Document/Sequence spine, a Python value
of a type the serializer does not recognize.  (Embedding-placeholder
payloads are opaque to the codec and are not scanned.) -/
def containsUnsupported : Value → Bool
  | .vUnsupported _ => true
  | .vdoc d => entriesContainUnsupported d
  | .vlist l => itemsContainUnsupported l
  | _ => false

def entriesContainUnsupported : List (String × Value) → Bool
  | [] => false
  | (_, v) :: rest => containsUnsupported v || entriesContainUnsupported rest

def itemsContainUnsupported : List Value → Bool
  | [] => false
  | v :: rest => containsUnsupported v || itemsContainUnsupported rest

end

/-- A key that is neither an embedding tag nor one of the nine
extension tags. -/
def plainKey (k : String) : Bool :=
  !(k = "@embText" || k = "@embImage" || isTagKey k)

mutual

/-- A purely structural value: scalars, Documents and Sequences only
(no extension values, no unsupported values), with no Document key
anywhere equal to a reserved tag key. -/
def plainValue : Value → Bool
  | .vnull | .vbool _ | .vint _ | .vfloat _ | .vstr _ => true
  | .vdoc d => plainEntries d
  | .vlist l => plainItems l
  | _ => false

def plainEntries : List (String × Value) → Bool
  | [] => true
  | (k, v) :: rest => plainKey k && plainValue v && plainEntries rest

def plainItems : List Value → Bool
  | [] => true
  | v :: rest => plainValue v && plainItems rest

end

mutual

/-- A purely structural value in the sense of the spec's "structural
idempotence" sentence: only scalars, Documents and Sequences, with no
constraint on the keys used. -/
def structuralValue : Value → Bool
  | .vnull | .vbool _ | .vint _ | .vfloat _ | .vstr _ => true
  | .vdoc d => structuralEntries d
  | .vlist l => structuralItems l
  | _ => false

def structuralEntries : List (String × Value) → Bool
  | [] => true
  | (_, v) :: rest => structuralValue v && structuralEntries rest

def structuralItems : List Value → Bool
  | [] => true
  | v :: rest => structuralValue v && structuralItems rest

end

/-! ### Error classification (`Collection.handle_response`) -/

/-- Errors an operation can raise.  The first four mirror the exception
classes of `_collection.py` (`apiClientError` is the base class
`APIClientError`, raised directly for unparsable failure bodies); the
rest model Python exceptions that escape `handle_response` uncaught: a
codec `TypeError` from `__deserialize`, a `ValueError` from
`response.json()` on a success body that is not JSON, a `TypeError`
from comparing a non-integer `code` with `400`, and an
`AttributeError` from calling `.get` on a non-dict. -/
inductive ApiError where
  | authenticationError (code : Int) (message : Value)
  | clientRequestError (code : Int) (message : Value)
  | serverError (code : Int) (message : Value)
  | apiClientError (statusCode : Nat) (text : String)
  | codecError (e : CodecErr)
  | jsonValueError
  | pyTypeError
  | pyAttributeError

/-- A transport response: HTTP status, the JSON parse of the body
(`none` when the body is not valid JSON), and the raw body text. -/
structure HttpResponse where
  status : Nat
  jsonBody : Option Value
  text : String

/-- `error_data.get("message", "An unknown error occurred.")`. -/
def errMessage (d : List (String × Value)) : Value :=
  (getField d "message").getD (.vstr "An unknown error occurred.")

/-- `Collection.handle_response`.  `raise_for_status` raises `HTTPError`
exactly for statuses 400–599; on success the JSON body is deserialized
through the codec; on failure the error body is re-parsed as JSON and
classified by its `code` field (default 500), falling back to the base
`APIClientError` with the literal HTTP status and raw text when the
body is not JSON. -/
def handle_response (r : HttpResponse) : Except ApiError Value :=
  if 400 ≤ r.status ∧ r.status < 600 then
    match r.jsonBody with
    | some (.vdoc d) =>
        let code := (getField d "code").getD (.vint 500)
        let message := errMessage d
        match code with
        | .vint c =>
            if c = 401 then .error (.authenticationError c message)
            else if 400 ≤ c ∧ c < 500 then .error (.clientRequestError c message)
            else .error (.serverError c message)
        | _ => .error .pyTypeError
    | some _ => .error .pyAttributeError
    | none => .error (.apiClientError r.status r.text)
  else
    match r.jsonBody with
    | some b => (deserialize b).mapError .codecError
    | none => .error .jsonValueError

/-! ### Operation facade

Each operation builds its request body (a Python dict, modelled as an
ordered assoc list) and processes the response through
`handle_response`.  Optional arguments are `Option`s (`none` is
Python's `None` default). -/

/-- The value placed in a body for an optional Document argument passed
positionally without serialization (`None` becomes JSON `null`). -/
def optVal (o : Option Value) : Value := o.getD .vnull

/-- The value placed in a body for an optional int argument. -/
def optInt (o : Option Int) : Value := (o.map Value.vint).getD .vnull

/-- `Collection.insert`: body `{"documents": [serialized docs]}`. -/
def insertBody (documents : List Value) : Except CodecErr (List (String × Value)) := do
  let serialized_docs ← serializeItems documents
  pure [("documents", .vlist serialized_docs)]

/-- `Collection.update`: body with serialized filter, serialized update
and the upsert flag. -/
def updateBody (filter update : Value) (upsert : Bool) :
    Except CodecErr (List (String × Value)) := do
  let tf ← serialize filter
  let tu ← serialize update
  pure [("filter", tf), ("update", tu), ("upsert", .vbool upsert)]

/-- `Collection.delete`: body with the serialized filter. -/
def deleteBody (filter : Value) : Except CodecErr (List (String × Value)) := do
  let tf ← serialize filter
  pure [("filter", tf)]

/-- `Collection.find`'s request body: the filter is serialized;
projection, sort, limit and skip are placed in the body as passed
(unserialized, `None` included as `null`). -/
def findBody (filter : Value) (projection sort : Option Value)
    (limit skip : Option Int) : Except CodecErr (List (String × Value)) := do
  let tf ← serialize filter
  pure [("filter", tf), ("projection", optVal projection), ("sort", optVal sort),
        ("limit", optInt limit), ("skip", optInt skip)]

/-- `Collection.query`'s request body: starts as `{"query": query}` and
appends each optional argument under its key only when it is not
`None`; no argument is serialized. -/
def queryBody (query : String) (filter projection : Option Value)
    (emb_model : Option String) (top_k : Option Int)
    (include_values : Option Bool) : List (String × Value) :=
  let d := [("query", Value.vstr query)]
  let d := match filter with
    | some f => d ++ [("filter", f)]
    | none => d
  let d := match projection with
    | some p => d ++ [("projection", p)]
    | none => d
  let d := match emb_model with
    | some m => d ++ [("emb_model", .vstr m)]
    | none => d
  let d := match top_k with
    | some n => d ++ [("top_k", .vint n)]
    | none => d
  match include_values with
  | some b => d ++ [("include_values", .vbool b)]
  | none => d

/-- Python `response_data.get(key, [])` on the deserialized body
(raises `AttributeError` when the body is not a dict). -/
def dictGetD (v : Value) (key : String) (dflt : Value) : Except ApiError Value :=
  match v with
  | .vdoc d => .ok ((getField d key).getD dflt)
  | _ => .error .pyAttributeError

/-- `Collection.find`'s response handling:
`self.handle_response(response).get("docs", [])`. -/
def findResult (r : HttpResponse) : Except ApiError Value :=
  (handle_response r).bind (fun v => dictGetD v "docs" (.vlist []))

/-- `Collection.query`'s response handling:
`self.handle_response(response).get("matches", [])`. -/
def queryResult (r : HttpResponse) : Except ApiError Value :=
  (handle_response r).bind (fun v => dictGetD v "matches" (.vlist []))

/-- `Collection.drop`: a 204 status returns `None` immediately without
touching the body; any other response goes through `handle_response`
(whose value, if any, is discarded — `drop` returns `None`). -/
def dropResult (r : HttpResponse) : Except ApiError Unit :=
  if r.status = 204 then .ok ()
  else (handle_response r).map (fun _ => ())

/-! ### Lemmas: hex round trip -/

lemma hexDigitVal_hexDigit (n : Nat) (h : n < 16) :
    hexDigitVal (hexDigit n) = some n := by
  interval_cases n <;> decide

lemma hexDigitVal_hexDigitUpper (n : Nat) (h : n < 16) :
    hexDigitVal (hexDigitUpper n) = some n := by
  interval_cases n <;> decide

lemma hexDecodeChars_encode (bs : List Nat) (h : ∀ b ∈ bs, b < 256) :
    hexDecodeChars (hexEncodeChars bs) = some bs := by
  induction bs with
  | nil => rfl
  | cons b rest ih =>
      have hb : b < 256 := h b (List.mem_cons_self b rest)
      have hhi : b / 16 < 16 := by omega
      have hlo : b % 16 < 16 := by omega
      have hrest : hexDecodeChars (hexEncodeChars rest) = some rest :=
        ih (fun x hx => h x (List.mem_cons_of_mem b hx))
      simp [hexEncodeChars, hexDecodeChars, hexDigitVal_hexDigit _ hhi,
            hexDigitVal_hexDigit _ hlo, hrest]
      omega

lemma hexDecodeChars_encodeUpper (bs : List Nat) (h : ∀ b ∈ bs, b < 256) :
    hexDecodeChars (hexEncodeCharsUpper bs) = some bs := by
  induction bs with
  | nil => rfl
  | cons b rest ih =>
      have hb : b < 256 := h b (List.mem_cons_self b rest)
      have hhi : b / 16 < 16 := by omega
      have hlo : b % 16 < 16 := by omega
      have hrest : hexDecodeChars (hexEncodeCharsUpper rest) = some rest :=
        ih (fun x hx => h x (List.mem_cons_of_mem b hx))
      simp [hexEncodeCharsUpper, hexDecodeChars, hexDigitVal_hexDigitUpper _ hhi,
            hexDigitVal_hexDigitUpper _ hlo, hrest]
      omega

lemma hexDecode_hexEncode (bs : List Nat) (h : ∀ b ∈ bs, b < 256) :
    hexDecode (hexEncode bs) = some bs :=
  hexDecodeChars_encode bs h

lemma hexDecode_hexEncodeUpper (bs : List Nat) (h : ∀ b ∈ bs, b < 256) :
    hexDecode (hexEncodeUpper bs) = some bs :=
  hexDecodeChars_encodeUpper bs h

/-! ### Lemmas: the tag-scan loop -/

lemma isTagKey_cases (k : String) (hk : isTagKey k = true) :
    k = "$oid" ∨ k = "$date" ∨ k = "$numberDecimal" ∨ k = "$binary" ∨
    k = "$regex" ∨ k = "$code" ∨ k = "$timestamp" ∨ k = "$minKey" ∨
    k = "$maxKey" := by
  simp only [isTagKey, Bool.or_eq_true, decide_eq_true_eq] at hk
  tauto

lemma not_isTagKey (k : String) (hk : isTagKey k = false) :
    ¬(k = "$oid") ∧ ¬(k = "$date") ∧ ¬(k = "$numberDecimal") ∧
    ¬(k = "$binary") ∧ ¬(k = "$regex") ∧ ¬(k = "$code") ∧
    ¬(k = "$timestamp") ∧ ¬(k = "$minKey") ∧ ¬(k = "$maxKey") := by
  simp only [isTagKey, Bool.or_eq_false_iff, decide_eq_false_iff_not] at hk
  tauto

lemma startsDollar_of_isTagKey (k : String) (hk : isTagKey k = true) :
    startsDollar k = true := by
  rcases isTagKey_cases k hk with h | h | h | h | h | h | h | h | h <;>
    subst h <;> decide

/-- One iteration of the scan loop, when the Document carries neither
embedding tag: the key is either one of the nine tags (decode it) or
the loop moves on. -/
lemma scanStep_cons (whole : List (String × Value)) (k : String) (v : Value)
    (rest : List (String × Value))
    (hT : hasKey whole "@embText" = false)
    (hI : hasKey whole "@embImage" = false) :
    scanStep whole ((k, v) :: rest) =
      if isTagKey k then (decodeByTag whole k).map some
      else scanStep whole rest := by
  cases hk : isTagKey k with
  | true =>
      rcases isTagKey_cases k hk with h | h | h | h | h | h | h | h | h <;>
        subst h <;>
        simp [scanStep, hT, hI, decodeByTag, Except.map,
              startsDollar_of_isTagKey _ hk]
  | false =>
      obtain ⟨h1, h2, h3, h4, h5, h6, h7, h8, h9⟩ := not_isTagKey k hk
      simp [scanStep, hT, hI, h1, h2, h3, h4, h5, h6, h7, h8, h9]

/-- The scan loop, when the Document carries neither embedding tag,
returns the decoding of the first tag key in scan order, and `none`
when no scanned key is a tag. -/
lemma scanStep_characterization (whole : List (String × Value))
    (hT : hasKey whole "@embText" = false)
    (hI : hasKey whole "@embImage" = false)
    (l : List (String × Value)) :
    scanStep whole l =
      match l.find? (fun kv => isTagKey kv.1) with
      | some kv => (decodeByTag whole kv.1).map some
      | none => .ok none := by
  induction l with
  | nil => rfl
  | cons kv rest ih =>
      obtain ⟨k, v⟩ := kv
      rw [scanStep_cons whole k v rest hT hI]
      cases hk : isTagKey k with
      | true => simp [List.find?, hk]
      | false => simp [List.find?, hk, ih]

/-- Deserializing a Document without embedding tags: decode by the
first tag key in the Document's own order, or structurally. -/
lemma deserialize_vdoc_of_noEmb (d : List (String × Value))
    (hT : hasKey d "@embText" = false)
    (hI : hasKey d "@embImage" = false) :
    deserialize (.vdoc d) =
      match firstTagKey d with
      | some k => decodeByTag d k
      | none => (deserializeEntries d).map .vdoc := by
  have hscan := scanStep_characterization d hT hI d
  show (match scanStep d d with
        | Except.error e => Except.error e
        | Except.ok (some v) => Except.ok v
        | Except.ok none => (deserializeEntries d).map Value.vdoc) = _
  rw [hscan]
  cases hfind : d.find? (fun kv => isTagKey kv.1) with
  | none => simp [firstTagKey, hfind]
  | some kv =>
      cases hdec : decodeByTag d kv.1 with
      | ok v => simp [firstTagKey, hfind, hdec, Except.map]
      | error e => simp [firstTagKey, hfind, hdec, Except.map]

/-- Deserializing a Document that contains the `@embText` key decodes
it as the EmbeddedText placeholder, whatever else it contains. -/
lemma deserialize_vdoc_embText (d : List (String × Value)) (p : Value)
    (hp : getField d "@embText" = some p) :
    deserialize (.vdoc d) = .ok (.vEmbText p) := by
  have hT : hasKey d "@embText" = true := by simp [hasKey, hp]
  cases d with
  | nil => simp [getField] at hp
  | cons kv rest =>
      show (match scanStep (kv :: rest) (kv :: rest) with
            | Except.error e => Except.error e
            | Except.ok (some v) => Except.ok v
            | Except.ok none => (deserializeEntries (kv :: rest)).map Value.vdoc) = _
      obtain ⟨k, v⟩ := kv
      simp [scanStep, hT, embTextFromJson, hp, Except.map]

/-- Deserializing a Document with `@embImage` but not `@embText`
decodes it as the EmbeddedImage placeholder. -/
lemma deserialize_vdoc_embImage (d : List (String × Value)) (p : Value)
    (hT : hasKey d "@embText" = false)
    (hp : getField d "@embImage" = some p) :
    deserialize (.vdoc d) = .ok (.vEmbImage p) := by
  have hI : hasKey d "@embImage" = true := by simp [hasKey, hp]
  cases d with
  | nil => simp [getField] at hp
  | cons kv rest =>
      show (match scanStep (kv :: rest) (kv :: rest) with
            | Except.error e => Except.error e
            | Except.ok (some v) => Except.ok v
            | Except.ok none => (deserializeEntries (kv :: rest)).map Value.vdoc) = _
      obtain ⟨k, v⟩ := kv
      simp [scanStep, hT, hI, embImageFromJson, hp, Except.map]

/-! ### Lemmas: plain values round-trip unchanged -/

lemma plainKey_spec (k : String) (h : plainKey k = true) :
    ¬(k = "@embText") ∧ ¬(k = "@embImage") ∧ isTagKey k = false := by
  simp only [plainKey, Bool.not_eq_true', Bool.or_eq_false_iff,
             decide_eq_false_iff_not] at h
  tauto

lemma plainEntries_no_embText (d : List (String × Value))
    (h : plainEntries d = true) : hasKey d "@embText" = false := by
  induction d with
  | nil => rfl
  | cons kv rest ih =>
      obtain ⟨k, v⟩ := kv
      simp only [plainEntries, Bool.and_eq_true] at h
      obtain ⟨⟨hk, _⟩, hrest⟩ := h
      have hk1 := (plainKey_spec k hk).1
      simp only [hasKey, getField, if_neg hk1]
      exact ih hrest

lemma plainEntries_no_embImage (d : List (String × Value))
    (h : plainEntries d = true) : hasKey d "@embImage" = false := by
  induction d with
  | nil => rfl
  | cons kv rest ih =>
      obtain ⟨k, v⟩ := kv
      simp only [plainEntries, Bool.and_eq_true] at h
      obtain ⟨⟨hk, _⟩, hrest⟩ := h
      have hk2 := (plainKey_spec k hk).2.1
      simp only [hasKey, getField, if_neg hk2]
      exact ih hrest

lemma plainEntries_firstTag_none (d : List (String × Value))
    (h : plainEntries d = true) : firstTagKey d = none := by
  induction d with
  | nil => rfl
  | cons kv rest ih =>
      obtain ⟨k, v⟩ := kv
      simp only [plainEntries, Bool.and_eq_true] at h
      obtain ⟨⟨hk, _⟩, hrest⟩ := h
      have hk3 := (plainKey_spec k hk).2.2
      have hstep : List.find? (fun kv => isTagKey kv.1) ((k, v) :: rest) =
          List.find? (fun kv => isTagKey kv.1) rest :=
        List.find?_cons_of_neg _ (by simp [hk3])
      simp only [firstTagKey, hstep]
      exact ih hrest

mutual

theorem serialize_plain (v : Value) (h : plainValue v = true) :
    serialize v = .ok v := by
  cases v with
  | vnull => rfl
  | vbool b => rfl
  | vint n => rfl
  | vfloat x => rfl
  | vstr s => rfl
  | vdoc d =>
      have hd : plainEntries d = true := by simpa [plainValue] using h
      show (serializeEntries d).map Value.vdoc = _
      rw [serializeEntries_plain d hd]; rfl
  | vlist l =>
      have hl : plainItems l = true := by simpa [plainValue] using h
      show (serializeItems l).map Value.vlist = _
      rw [serializeItems_plain l hl]; rfl
  | vObjectId s => simp [plainValue] at h
  | vDateTime s => simp [plainValue] at h
  | vDecimal s => simp [plainValue] at h
  | vBinary bs => simp [plainValue] at h
  | vRegex p f => simp [plainValue] at h
  | vCode s => simp [plainValue] at h
  | vTimestamp t i => simp [plainValue] at h
  | vMinKey => simp [plainValue] at h
  | vMaxKey => simp [plainValue] at h
  | vEmbText p => simp [plainValue] at h
  | vEmbImage p => simp [plainValue] at h
  | vUnsupported t => simp [plainValue] at h

theorem serializeEntries_plain (d : List (String × Value))
    (h : plainEntries d = true) : serializeEntries d = .ok d := by
  match d with
  | [] => rfl
  | (k, v) :: rest =>
      simp only [plainEntries, Bool.and_eq_true] at h
      obtain ⟨⟨_, hv⟩, hrest⟩ := h
      simp only [serializeEntries, serialize_plain v hv,
            serializeEntries_plain rest hrest]
      rfl

theorem serializeItems_plain (l : List Value) (h : plainItems l = true) :
    serializeItems l = .ok l := by
  match l with
  | [] => rfl
  | v :: rest =>
      simp only [plainItems, Bool.and_eq_true] at h
      obtain ⟨hv, hrest⟩ := h
      simp only [serializeItems, serialize_plain v hv,
            serializeItems_plain rest hrest]
      rfl

end

mutual

theorem deserialize_plain (v : Value) (h : plainValue v = true) :
    deserialize v = .ok v := by
  cases v with
  | vnull => rfl
  | vbool b => rfl
  | vint n => rfl
  | vfloat x => rfl
  | vstr s => rfl
  | vdoc d =>
      have hd : plainEntries d = true := by simpa [plainValue] using h
      rw [deserialize_vdoc_of_noEmb d (plainEntries_no_embText d hd)
            (plainEntries_no_embImage d hd)]
      rw [plainEntries_firstTag_none d hd]
      rw [deserializeEntries_plain d hd]; rfl
  | vlist l =>
      have hl : plainItems l = true := by simpa [plainValue] using h
      show (deserializeItems l).map Value.vlist = _
      rw [deserializeItems_plain l hl]; rfl
  | vObjectId s => simp [plainValue] at h
  | vDateTime s => simp [plainValue] at h
  | vDecimal s => simp [plainValue] at h
  | vBinary bs => simp [plainValue] at h
  | vRegex p f => simp [plainValue] at h
  | vCode s => simp [plainValue] at h
  | vTimestamp t i => simp [plainValue] at h
  | vMinKey => simp [plainValue] at h
  | vMaxKey => simp [plainValue] at h
  | vEmbText p => simp [plainValue] at h
  | vEmbImage p => simp [plainValue] at h
  | vUnsupported t => simp [plainValue] at h

theorem deserializeEntries_plain (d : List (String × Value))
    (h : plainEntries d = true) : deserializeEntries d = .ok d := by
  match d with
  | [] => rfl
  | (k, v) :: rest =>
      simp only [plainEntries, Bool.and_eq_true] at h
      obtain ⟨⟨_, hv⟩, hrest⟩ := h
      simp only [deserializeEntries, deserialize_plain v hv,
            deserializeEntries_plain rest hrest]
      rfl

theorem deserializeItems_plain (l : List Value) (h : plainItems l = true) :
    deserializeItems l = .ok l := by
  match l with
  | [] => rfl
  | v :: rest =>
      simp only [plainItems, Bool.and_eq_true] at h
      obtain ⟨hv, hrest⟩ := h
      simp only [deserializeItems, deserialize_plain v hv,
            deserializeItems_plain rest hrest]
      rfl

end

/-! ### Claim theorems -/

/-- Deserializing the tagged Document for a Binary whose payload hex
string decodes to `bs` yields `Binary(bs)`. -/
lemma deserialize_binary (s : String) (bs : List Nat)
    (hs : hexDecode s = some bs) :
    deserialize (.vdoc [("$binary", .vstr s)]) = .ok (.vBinary bs) := by
  rw [deserialize_vdoc_of_noEmb [("$binary", .vstr s)] rfl rfl]
  show (match hexDecode s with
        | some bs2 => Except.ok (Value.vBinary bs2)
        | none => Except.error (CodecErr.badPayload "$binary")) = _
  rw [hs]

/-- Claim C1: for every ExtensionValue variant v (ObjectId, DateTime,
Decimal, Binary, Regex, Code, Timestamp, MinKey, MaxKey, EmbeddedText,
EmbeddedImage), deserializing the result of serializing v yields a
value equal to v; a Binary payload is compared as decoded bytes, so a
wire hex string decodes to the same bytes whether written in lowercase
or uppercase. -/
theorem claim_C1 :
    (∀ v, isExtensionValue v = true → extWF v = true →
      (serialize v).bind deserialize = .ok v) ∧
    (∀ bs, bs.all (fun b => b < 256) = true →
      deserialize (.vdoc [("$binary", .vstr (hexEncode bs))]) =
        .ok (.vBinary bs) ∧
      deserialize (.vdoc [("$binary", .vstr (hexEncodeUpper bs))]) =
        .ok (.vBinary bs)) := by
  constructor
  · intro v hext hwf
    cases v with
    | vObjectId s => rfl
    | vDateTime s => rfl
    | vDecimal s => rfl
    | vBinary bs =>
        have hall : ∀ b ∈ bs, b < 256 := by
          simpa [extWF, List.all_eq_true] using hwf
        exact deserialize_binary _ _ (hexDecode_hexEncode bs hall)
    | vRegex p f => rfl
    | vCode s => rfl
    | vTimestamp t i => rfl
    | vMinKey => rfl
    | vMaxKey => rfl
    | vEmbText p => rfl
    | vEmbImage p => rfl
    | vnull => simp [isExtensionValue] at hext
    | vbool b => simp [isExtensionValue] at hext
    | vint n => simp [isExtensionValue] at hext
    | vfloat x => simp [isExtensionValue] at hext
    | vstr s => simp [isExtensionValue] at hext
    | vdoc d => simp [isExtensionValue] at hext
    | vlist l => simp [isExtensionValue] at hext
    | vUnsupported t => simp [isExtensionValue] at hext
  · intro bs hall
    have h : ∀ b ∈ bs, b < 256 := by simpa [List.all_eq_true] using hall
    exact ⟨deserialize_binary _ _ (hexDecode_hexEncode bs h),
           deserialize_binary _ _ (hexDecode_hexEncodeUpper bs h)⟩

/-- Witness for C1 at concrete inputs: a Regex and a Binary, the
latter also decoded from its uppercase hex rendering. -/
theorem claim_C1_witness :
    (serialize (.vRegex "ab" 2)).bind deserialize = .ok (.vRegex "ab" 2) ∧
    (serialize (.vBinary [0, 171, 255])).bind deserialize =
      .ok (.vBinary [0, 171, 255]) ∧
    deserialize (.vdoc [("$binary", .vstr (hexEncodeUpper [0, 171, 255]))]) =
      .ok (.vBinary [0, 171, 255]) :=
  ⟨claim_C1.1 (.vRegex "ab" 2) rfl rfl,
   claim_C1.1 (.vBinary [0, 171, 255]) rfl rfl,
   (claim_C1.2 [0, 171, 255] rfl).2⟩

/-- Counterexample to C2 as stated: the wire Document whose keys are,
in the Document's own order, `$date` then `$oid` (neither embedding tag
present) decodes as the DateTime of the `$date` payload — not, as the
claimed fixed priority order `$oid` first would require, as the
ObjectId of the `$oid` payload.  The scan follows the Document's key
order, not a fixed priority order. -/
theorem claim_C2_counterexample :
    deserialize (.vdoc [("$date", .vstr "2020-01-01T00:00:00"),
                        ("$oid", .vstr "0123456789abcdef01234567")]) =
      .ok (.vDateTime "2020-01-01T00:00:00") ∧
    Except.ok (Value.vDateTime "2020-01-01T00:00:00") ≠
      (Except.ok (Value.vObjectId "0123456789abcdef01234567") :
        Except CodecErr Value) :=
  ⟨rfl, by simp⟩

/-- Claim C2, amended: for every wire Document that contains neither
`@embText` nor `@embImage`, deserialize scans the Document's keys in
the Document's own key order and decodes the Document as the
ExtensionValue of the first key that is one of the nine tags `$oid,
$date, $numberDecimal, $binary, $regex, $code, $timestamp, $minKey,
$maxKey`, using that tag's payload looked up in the whole Document
(plus the co-located `$options` key for `$regex`) and ignoring all
other keys; when no key is a tag the Document decodes structurally. -/
theorem claim_C2_amended (d : List (String × Value))
    (hT : hasKey d "@embText" = false)
    (hI : hasKey d "@embImage" = false) :
    (∀ k, firstTagKey d = some k → deserialize (.vdoc d) = decodeByTag d k) ∧
    (firstTagKey d = none →
      deserialize (.vdoc d) = (deserializeEntries d).map .vdoc) := by
  constructor
  · intro k hk
    rw [deserialize_vdoc_of_noEmb d hT hI, hk]
  · intro hk
    rw [deserialize_vdoc_of_noEmb d hT hI, hk]

/-- Witness for the amended C2: a Document whose first tag key in its
own order is `$date` (later keys, including `$oid`, are ignored). -/
theorem claim_C2_amended_witness :
    deserialize (.vdoc [("a", .vint 1),
                        ("$date", .vstr "2020-01-01T00:00:00"),
                        ("$oid", .vstr "0123456789abcdef01234567")]) =
      decodeByTag [("a", .vint 1),
                   ("$date", .vstr "2020-01-01T00:00:00"),
                   ("$oid", .vstr "0123456789abcdef01234567")] "$date" :=
  (claim_C2_amended [("a", .vint 1),
                     ("$date", .vstr "2020-01-01T00:00:00"),
                     ("$oid", .vstr "0123456789abcdef01234567")]
     rfl rfl).1 "$date" rfl

/-- Claim C3: a wire Document containing `@embText` decodes as
EmbeddedText whatever else it contains; a Document containing
`@embImage` but not `@embText` decodes as EmbeddedImage. -/
theorem claim_C3 (d : List (String × Value)) (p : Value) :
    (getField d "@embText" = some p →
      deserialize (.vdoc d) = .ok (.vEmbText p)) ∧
    (hasKey d "@embText" = false → getField d "@embImage" = some p →
      deserialize (.vdoc d) = .ok (.vEmbImage p)) :=
  ⟨fun hp => deserialize_vdoc_embText d p hp,
   fun hT hp => deserialize_vdoc_embImage d p hT hp⟩

/-- Witness for C3: a Document with both `@embText` and `$oid` decodes
as EmbeddedText, and one with `@embImage` and `$oid` as EmbeddedImage. -/
theorem claim_C3_witness :
    deserialize (.vdoc [("@embText", .vstr "t"), ("$oid", .vstr "x")]) =
      .ok (.vEmbText (.vstr "t")) ∧
    deserialize (.vdoc [("@embImage", .vstr "i"), ("$oid", .vstr "x")]) =
      .ok (.vEmbImage (.vstr "i")) :=
  ⟨(claim_C3 [("@embText", .vstr "t"), ("$oid", .vstr "x")] (.vstr "t")).1 rfl,
   (claim_C3 [("@embImage", .vstr "i"), ("$oid", .vstr "x")] (.vstr "i")).2
     rfl rfl⟩

mutual

theorem serialize_unsupported_error (v : Value)
    (h : containsUnsupported v = true) : ∃ e, serialize v = .error e := by
  cases v with
  | vUnsupported t => exact ⟨.unsupportedSer t, rfl⟩
  | vdoc d =>
      have hd : entriesContainUnsupported d = true := by
        simpa [containsUnsupported] using h
      obtain ⟨e, he⟩ := serializeEntries_unsupported_error d hd
      exact ⟨e, by show (serializeEntries d).map Value.vdoc = _; rw [he]; rfl⟩
  | vlist l =>
      have hl : itemsContainUnsupported l = true := by
        simpa [containsUnsupported] using h
      obtain ⟨e, he⟩ := serializeItems_unsupported_error l hl
      exact ⟨e, by show (serializeItems l).map Value.vlist = _; rw [he]; rfl⟩
  | vnull => simp [containsUnsupported] at h
  | vbool b => simp [containsUnsupported] at h
  | vint n => simp [containsUnsupported] at h
  | vfloat x => simp [containsUnsupported] at h
  | vstr s => simp [containsUnsupported] at h
  | vObjectId s => simp [containsUnsupported] at h
  | vDateTime s => simp [containsUnsupported] at h
  | vDecimal s => simp [containsUnsupported] at h
  | vBinary bs => simp [containsUnsupported] at h
  | vRegex p f => simp [containsUnsupported] at h
  | vCode s => simp [containsUnsupported] at h
  | vTimestamp t i => simp [containsUnsupported] at h
  | vMinKey => simp [containsUnsupported] at h
  | vMaxKey => simp [containsUnsupported] at h
  | vEmbText p => simp [containsUnsupported] at h
  | vEmbImage p => simp [containsUnsupported] at h

theorem serializeEntries_unsupported_error (d : List (String × Value))
    (h : entriesContainUnsupported d = true) :
    ∃ e, serializeEntries d = .error e := by
  match d with
  | [] => simp [entriesContainUnsupported] at h
  | (k, v) :: rest =>
      simp only [entriesContainUnsupported, Bool.or_eq_true] at h
      cases hv : containsUnsupported v with
      | true =>
          obtain ⟨e, he⟩ := serialize_unsupported_error v hv
          exact ⟨e, by simp only [serializeEntries, he]; rfl⟩
      | false =>
          have hrest : entriesContainUnsupported rest = true := by
            rcases h with h | h
            · rw [hv] at h; cases h
            · exact h
          obtain ⟨e, he⟩ := serializeEntries_unsupported_error rest hrest
          cases hs : serialize v with
          | error e2 => exact ⟨e2, by simp only [serializeEntries, hs]; rfl⟩
          | ok sv => exact ⟨e, by simp only [serializeEntries, hs, he]; rfl⟩

theorem serializeItems_unsupported_error (l : List Value)
    (h : itemsContainUnsupported l = true) :
    ∃ e, serializeItems l = .error e := by
  match l with
  | [] => simp [itemsContainUnsupported] at h
  | v :: rest =>
      simp only [itemsContainUnsupported, Bool.or_eq_true] at h
      cases hv : containsUnsupported v with
      | true =>
          obtain ⟨e, he⟩ := serialize_unsupported_error v hv
          exact ⟨e, by simp only [serializeItems, he]; rfl⟩
      | false =>
          have hrest : itemsContainUnsupported rest = true := by
            rcases h with h | h
            · rw [hv] at h; cases h
            · exact h
          obtain ⟨e, he⟩ := serializeItems_unsupported_error rest hrest
          cases hs : serialize v with
          | error e2 => exact ⟨e2, by simp only [serializeItems, hs]; rfl⟩
          | ok sv => exact ⟨e, by simp only [serializeItems, hs, he]; rfl⟩

end

/-- Claim C4: serialize raises for any value outside the recognized
types (a hard error that also surfaces from inside Documents and
Sequences, never a silent skip), and deserialize raises for any wire
value that is neither scalar nor mapping nor sequence. -/
theorem claim_C4 :
    (∀ t, serialize (.vUnsupported t) = .error (.unsupportedSer t)) ∧
    (∀ v, containsUnsupported v = true → ∃ e, serialize v = .error e) ∧
    (∀ v, isWireShape v = false → deserialize v = .error .unsupportedDeser) := by
  refine ⟨fun t => rfl, serialize_unsupported_error, fun v h => ?_⟩
  cases v with
  | vObjectId s => rfl
  | vDateTime s => rfl
  | vDecimal s => rfl
  | vBinary bs => rfl
  | vRegex p f => rfl
  | vCode s => rfl
  | vTimestamp t i => rfl
  | vMinKey => rfl
  | vMaxKey => rfl
  | vEmbText p => rfl
  | vEmbImage p => rfl
  | vUnsupported t => rfl
  | vnull => simp [isWireShape] at h
  | vbool b => simp [isWireShape] at h
  | vint n => simp [isWireShape] at h
  | vfloat x => simp [isWireShape] at h
  | vstr s => simp [isWireShape] at h
  | vdoc d => simp [isWireShape] at h
  | vlist l => simp [isWireShape] at h

/-- Witness for C4: a `set`-typed value errors at top level and from
inside a Document; a raw ObjectId object given to deserialize errors. -/
theorem claim_C4_witness :
    serialize (.vUnsupported "set") = .error (.unsupportedSer "set") ∧
    (∃ e, serialize (.vdoc [("a", .vUnsupported "set")]) = .error e) ∧
    deserialize (.vObjectId "0123456789abcdef01234567") =
      .error .unsupportedDeser :=
  ⟨claim_C4.1 "set",
   claim_C4.2.1 (.vdoc [("a", .vUnsupported "set")]) rfl,
   claim_C4.2.2 (.vObjectId "0123456789abcdef01234567") rfl⟩

/-- On a failed status with a JSON dict body, `handle_response` raises
per the code-field classification chain. -/
lemma handle_response_classify (st : Nat) (txt : String)
    (d : List (String × Value)) (c : Int)
    (hcond : 400 ≤ st ∧ st < 600)
    (hcode : getField d "code" = some (.vint c)) :
    handle_response ⟨st, some (.vdoc d), txt⟩ =
      .error (if c = 401 then .authenticationError c (errMessage d)
              else if 400 ≤ c ∧ c < 500 then .clientRequestError c (errMessage d)
              else .serverError c (errMessage d)) := by
  simp only [handle_response, hcode, if_pos hcond, Option.getD_some]
  split_ifs <;> rfl

/-- Claim C5: every failed transport response raises exactly one error
of the closed taxonomy: with a JSON body whose integer `code` is 401,
AuthenticationError; with 400 ≤ code < 500 and code ≠ 401,
ClientRequestError; with any other code, ServerError; and with a body
that does not parse as JSON, the generic API error carrying the
literal HTTP status and the raw body text. -/
theorem claim_C5 (st : Nat) (txt : String)
    (hlo : 400 ≤ st) (hhi : st < 600) :
    (∀ (d : List (String × Value)) (c : Int),
      getField d "code" = some (.vint c) →
      (c = 401 →
        handle_response ⟨st, some (.vdoc d), txt⟩ =
          .error (.authenticationError c (errMessage d))) ∧
      (400 ≤ c → c < 500 → c ≠ 401 →
        handle_response ⟨st, some (.vdoc d), txt⟩ =
          .error (.clientRequestError c (errMessage d))) ∧
      ((c < 400 ∨ 500 ≤ c) →
        handle_response ⟨st, some (.vdoc d), txt⟩ =
          .error (.serverError c (errMessage d)))) ∧
    handle_response ⟨st, none, txt⟩ = .error (.apiClientError st txt) := by
  have hcond : 400 ≤ st ∧ st < 600 := ⟨hlo, hhi⟩
  refine ⟨fun d c hcode => ⟨?_, ?_, ?_⟩, ?_⟩
  · intro h401
    rw [handle_response_classify st txt d c hcond hcode, if_pos h401]
  · intro h1 h2 h3
    rw [handle_response_classify st txt d c hcond hcode, if_neg h3,
        if_pos ⟨h1, h2⟩]
  · intro hout
    have h1 : ¬(c = 401) := by omega
    have h2 : ¬(400 ≤ c ∧ c < 500) := by omega
    rw [handle_response_classify st txt d c hcond hcode, if_neg h1, if_neg h2]
  · simp only [handle_response, if_pos hcond]

/-- Witness for C5: the classification table of the spec — 401, 404,
500 bodies and a non-JSON 502 body. -/
theorem claim_C5_witness :
    handle_response ⟨401,
        some (.vdoc [("code", .vint 401), ("message", .vstr "no auth")]),
        "b"⟩ =
      .error (.authenticationError 401 (.vstr "no auth")) ∧
    handle_response ⟨404, some (.vdoc [("code", .vint 404)]), "b"⟩ =
      .error (.clientRequestError 404 (.vstr "An unknown error occurred.")) ∧
    handle_response ⟨500, some (.vdoc [("code", .vint 500)]), "b"⟩ =
      .error (.serverError 500 (.vstr "An unknown error occurred.")) ∧
    handle_response ⟨502, none, "<html>bad gateway</html>"⟩ =
      .error (.apiClientError 502 "<html>bad gateway</html>") :=
  ⟨((claim_C5 401 "b" (by omega) (by omega)).1
      [("code", .vint 401), ("message", .vstr "no auth")] 401 rfl).1 rfl,
   ((claim_C5 404 "b" (by omega) (by omega)).1
      [("code", .vint 404)] 404 rfl).2.1 (by omega) (by omega) (by omega),
   ((claim_C5 500 "b" (by omega) (by omega)).1
      [("code", .vint 500)] 500 rfl).2.2 (by omega),
   (claim_C5 502 "<html>bad gateway</html>" (by omega) (by omega)).2⟩

/-- Counterexample to C6 as stated: the Document with the single entry
key `$minKey` and integer value 1 contains no extension values (its
only value is an integer), yet `deserialize(serialize(x))` returns the
MinKey extension object, not a Document structurally equal to x. -/
theorem claim_C6_counterexample :
    structuralValue (.vdoc [("$minKey", .vint 1)]) = true ∧
    (serialize (.vdoc [("$minKey", .vint 1)])).bind deserialize =
      .ok .vMinKey ∧
    (Except.ok Value.vMinKey : Except CodecErr Value) ≠
      .ok (.vdoc [("$minKey", .vint 1)]) :=
  ⟨rfl, rfl, by simp⟩

/-- Claim C6, amended: for every Document or Sequence built only from
null, booleans, integers, floats, strings and nested Documents and
Sequences, in which additionally no Document key anywhere is `@embText`,
`@embImage`, or one of the nine `$`-tags, deserialize(serialize(x)) is
structurally equal to x, with the key order of every Document
preserved. -/
theorem claim_C6_amended (v : Value) (h : plainValue v = true) :
    (serialize v).bind deserialize = .ok v := by
  rw [serialize_plain v h]
  exact deserialize_plain v h

/-- Witness for the amended C6: a nested plain Document. -/
theorem claim_C6_amended_witness :
    (serialize (.vdoc [("a", .vint 1), ("b", .vlist [.vnull, .vstr "x"]),
                       ("c", .vdoc [("d", .vbool true)])])).bind deserialize =
      .ok (.vdoc [("a", .vint 1), ("b", .vlist [.vnull, .vstr "x"]),
                  ("c", .vdoc [("d", .vbool true)])]) :=
  claim_C6_amended
    (.vdoc [("a", .vint 1), ("b", .vlist [.vnull, .vstr "x"]),
            ("c", .vdoc [("d", .vbool true)])]) rfl

/-- Counterexample to C7 as stated: query does not serialize its
filter.  With a filter containing an ObjectId, the request body built
by `query` carries the filter verbatim, which differs from its
TypeCodec serialization. -/
theorem claim_C7_counterexample :
    getField (queryBody "q"
        (some (.vdoc [("a", .vObjectId "0123456789abcdef01234567")]))
        none none none none) "filter" =
      some (.vdoc [("a", .vObjectId "0123456789abcdef01234567")]) ∧
    serialize (.vdoc [("a", .vObjectId "0123456789abcdef01234567")]) =
      .ok (.vdoc [("a", .vdoc [("$oid", .vstr "0123456789abcdef01234567")])]) ∧
    (Value.vdoc [("a", .vObjectId "0123456789abcdef01234567")]) ≠
      .vdoc [("a", .vdoc [("$oid", .vstr "0123456789abcdef01234567")])] :=
  ⟨rfl, rfl, by simp⟩

/-- Claim C7, amended: insert serializes its documents; update its
filter and update; delete its filter; find serializes only its filter,
passing projection and sort into the body unserialized; query passes
every input (filter and projection included) into the body
unserialized; find and query deserialize the success body via the
response handler before extracting `docs` / `matches` with an empty
default. -/
theorem claim_C7_amended :
    (∀ docs s, serializeItems docs = .ok s →
      insertBody docs = .ok [("documents", .vlist s)]) ∧
    (∀ f u b tf tu, serialize f = .ok tf → serialize u = .ok tu →
      updateBody f u b =
        .ok [("filter", tf), ("update", tu), ("upsert", .vbool b)]) ∧
    (∀ f tf, serialize f = .ok tf → deleteBody f = .ok [("filter", tf)]) ∧
    (∀ f p s l k tf, serialize f = .ok tf →
      findBody f p s l k =
        .ok [("filter", tf), ("projection", optVal p), ("sort", optVal s),
             ("limit", optInt l), ("skip", optInt k)]) ∧
    (∀ q f pr m tk iv,
      getField (queryBody q f pr m tk iv) "filter" = f ∧
      getField (queryBody q f pr m tk iv) "projection" = pr) ∧
    (∀ r d, handle_response r = .ok (.vdoc d) →
      findResult r = .ok ((getField d "docs").getD (.vlist [])) ∧
      queryResult r = .ok ((getField d "matches").getD (.vlist []))) := by
  refine ⟨?_, ?_, ?_, ?_, ?_, ?_⟩
  · intro docs s hs
    simp only [insertBody, hs]; rfl
  · intro f u b tf tu hf hu
    simp only [updateBody, hf, hu]; rfl
  · intro f tf hf
    simp only [deleteBody, hf]; rfl
  · intro f p s l k tf hf
    simp only [findBody, hf]; rfl
  · intro q f pr m tk iv
    cases f <;> cases pr <;> cases m <;> cases tk <;> cases iv <;>
      exact ⟨rfl, rfl⟩
  · intro r d h
    constructor
    · simp only [findResult, h]
      show dictGetD (.vdoc d) "docs" (.vlist []) = _
      rfl
    · simp only [queryResult, h]
      show dictGetD (.vdoc d) "matches" (.vlist []) = _
      rfl

/-- Witness for the amended C7 at concrete inputs. -/
theorem claim_C7_amended_witness :
    insertBody [.vObjectId "0123456789abcdef01234567"] =
      .ok [("documents",
            .vlist [.vdoc [("$oid", .vstr "0123456789abcdef01234567")]])] ∧
    findBody (.vdoc [("a", .vMinKey)]) none none none none =
      .ok [("filter", .vdoc [("a", .vdoc [("$minKey", .vint 1)])]),
           ("projection", .vnull), ("sort", .vnull),
           ("limit", .vnull), ("skip", .vnull)] ∧
    findResult ⟨200, some (.vdoc [("docs", .vlist [.vint 1])]), "b"⟩ =
      .ok (.vlist [.vint 1]) :=
  ⟨claim_C7_amended.1 [.vObjectId "0123456789abcdef01234567"]
      [.vdoc [("$oid", .vstr "0123456789abcdef01234567")]] rfl,
   claim_C7_amended.2.2.2.1 (.vdoc [("a", .vMinKey)]) none none none none
      (.vdoc [("a", .vdoc [("$minKey", .vint 1)])]) rfl,
   (claim_C7_amended.2.2.2.2.2 ⟨200, some (.vdoc [("docs", .vlist [.vint 1])]), "b"⟩
      [("docs", .vlist [.vint 1])] rfl).1⟩

/-- A failed status (400–599) always makes `handle_response` raise. -/
lemma handle_response_failed_error (r : HttpResponse)
    (hlo : 400 ≤ r.status) (hhi : r.status < 600) :
    ∃ e, handle_response r = .error e := by
  obtain ⟨st, body, txt⟩ := r
  have hcond : 400 ≤ st ∧ st < 600 := ⟨hlo, hhi⟩
  cases body with
  | none => exact ⟨_, by simp only [handle_response, if_pos hcond]; rfl⟩
  | some b =>
      cases b with
      | vdoc d =>
          cases hc : (getField d "code").getD (.vint 500) with
          | vint c =>
              by_cases h1 : c = 401
              · exact ⟨_, by
                  simp only [handle_response, if_pos hcond, hc, if_pos h1]; rfl⟩
              · by_cases h2 : 400 ≤ c ∧ c < 500
                · exact ⟨_, by
                    simp only [handle_response, if_pos hcond, hc, if_neg h1,
                               if_pos h2]; rfl⟩
                · exact ⟨_, by
                    simp only [handle_response, if_pos hcond, hc, if_neg h1,
                               if_neg h2]; rfl⟩
          | vnull => exact ⟨_, by simp only [handle_response, if_pos hcond, hc]; rfl⟩
          | vbool b2 => exact ⟨_, by simp only [handle_response, if_pos hcond, hc]; rfl⟩
          | vfloat x => exact ⟨_, by simp only [handle_response, if_pos hcond, hc]; rfl⟩
          | vstr s => exact ⟨_, by simp only [handle_response, if_pos hcond, hc]; rfl⟩
          | vdoc d2 => exact ⟨_, by simp only [handle_response, if_pos hcond, hc]; rfl⟩
          | vlist l => exact ⟨_, by simp only [handle_response, if_pos hcond, hc]; rfl⟩
          | vObjectId s => exact ⟨_, by simp only [handle_response, if_pos hcond, hc]; rfl⟩
          | vDateTime s => exact ⟨_, by simp only [handle_response, if_pos hcond, hc]; rfl⟩
          | vDecimal s => exact ⟨_, by simp only [handle_response, if_pos hcond, hc]; rfl⟩
          | vBinary bs => exact ⟨_, by simp only [handle_response, if_pos hcond, hc]; rfl⟩
          | vRegex p fl => exact ⟨_, by simp only [handle_response, if_pos hcond, hc]; rfl⟩
          | vCode s => exact ⟨_, by simp only [handle_response, if_pos hcond, hc]; rfl⟩
          | vTimestamp t i => exact ⟨_, by simp only [handle_response, if_pos hcond, hc]; rfl⟩
          | vMinKey => exact ⟨_, by simp only [handle_response, if_pos hcond, hc]; rfl⟩
          | vMaxKey => exact ⟨_, by simp only [handle_response, if_pos hcond, hc]; rfl⟩
          | vEmbText p => exact ⟨_, by simp only [handle_response, if_pos hcond, hc]; rfl⟩
          | vEmbImage p => exact ⟨_, by simp only [handle_response, if_pos hcond, hc]; rfl⟩
          | vUnsupported t => exact ⟨_, by simp only [handle_response, if_pos hcond, hc]; rfl⟩
      | vnull => exact ⟨_, by simp only [handle_response, if_pos hcond]; rfl⟩
      | vbool b2 => exact ⟨_, by simp only [handle_response, if_pos hcond]; rfl⟩
      | vint n => exact ⟨_, by simp only [handle_response, if_pos hcond]; rfl⟩
      | vfloat x => exact ⟨_, by simp only [handle_response, if_pos hcond]; rfl⟩
      | vstr s => exact ⟨_, by simp only [handle_response, if_pos hcond]; rfl⟩
      | vlist l => exact ⟨_, by simp only [handle_response, if_pos hcond]; rfl⟩
      | vObjectId s => exact ⟨_, by simp only [handle_response, if_pos hcond]; rfl⟩
      | vDateTime s => exact ⟨_, by simp only [handle_response, if_pos hcond]; rfl⟩
      | vDecimal s => exact ⟨_, by simp only [handle_response, if_pos hcond]; rfl⟩
      | vBinary bs => exact ⟨_, by simp only [handle_response, if_pos hcond]; rfl⟩
      | vRegex p fl => exact ⟨_, by simp only [handle_response, if_pos hcond]; rfl⟩
      | vCode s => exact ⟨_, by simp only [handle_response, if_pos hcond]; rfl⟩
      | vTimestamp t i => exact ⟨_, by simp only [handle_response, if_pos hcond]; rfl⟩
      | vMinKey => exact ⟨_, by simp only [handle_response, if_pos hcond]; rfl⟩
      | vMaxKey => exact ⟨_, by simp only [handle_response, if_pos hcond]; rfl⟩
      | vEmbText p => exact ⟨_, by simp only [handle_response, if_pos hcond]; rfl⟩
      | vEmbImage p => exact ⟨_, by simp only [handle_response, if_pos hcond]; rfl⟩
      | vUnsupported t => exact ⟨_, by simp only [handle_response, if_pos hcond]; rfl⟩

/-- Claim C8: drop treats status 204 ("no content") as success and
returns without touching the body; any failed response to drop goes
through the classifier and the resulting typed error is raised. -/
theorem claim_C8 :
    (∀ (b : Option Value) (t : String), dropResult ⟨204, b, t⟩ = .ok ()) ∧
    (∀ r : HttpResponse, 400 ≤ r.status → r.status < 600 →
      ∃ e, handle_response r = .error e ∧ dropResult r = .error e) := by
  constructor
  · intro b t; rfl
  · intro r hlo hhi
    obtain ⟨e, he⟩ := handle_response_failed_error r hlo hhi
    refine ⟨e, he, ?_⟩
    have h204 : ¬(r.status = 204) := by omega
    simp only [dropResult, if_neg h204, he]; rfl

/-- Witness for C8: a bodyless 204 succeeds; a failed 500 with a
non-JSON body raises the same classified error from drop as from the
handler. -/
theorem claim_C8_witness :
    dropResult ⟨204, none, ""⟩ = .ok () ∧
    ∃ e, handle_response ⟨500, none, "oops"⟩ = .error e ∧
         dropResult ⟨500, none, "oops"⟩ = .error e :=
  ⟨claim_C8.1 none "", claim_C8.2 ⟨500, none, "oops"⟩ (by decide) (by decide)⟩

/-- Claim C9: the query request body contains a key for an optional
parameter exactly when that parameter is set; in particular with
`top_k` unset the body has no `top_k` key at all; the mandatory
`query` key is always present. -/
theorem claim_C9 (q : String) (f pr : Option Value) (m : Option String)
    (tk : Option Int) (iv : Option Bool) :
    hasKey (queryBody q f pr m tk iv) "query" = true ∧
    hasKey (queryBody q f pr m tk iv) "filter" = f.isSome ∧
    hasKey (queryBody q f pr m tk iv) "projection" = pr.isSome ∧
    hasKey (queryBody q f pr m tk iv) "emb_model" = m.isSome ∧
    hasKey (queryBody q f pr m tk iv) "top_k" = tk.isSome ∧
    hasKey (queryBody q f pr m tk iv) "include_values" = iv.isSome := by
  cases f <;> cases pr <;> cases m <;> cases tk <;> cases iv <;>
    exact ⟨rfl, rfl, rfl, rfl, rfl, rfl⟩

/-- Claim C10: when the deserialized success body lacks `docs`, find
returns the empty list; when it lacks `matches`, query returns the
empty sequence. -/
theorem claim_C10 (r : HttpResponse) (d : List (String × Value))
    (h : handle_response r = .ok (.vdoc d)) :
    (getField d "docs" = none → findResult r = .ok (.vlist [])) ∧
    (getField d "matches" = none → queryResult r = .ok (.vlist [])) := by
  constructor
  · intro hd
    simp only [findResult, h]
    show dictGetD (.vdoc d) "docs" (.vlist []) = _
    simp only [dictGetD, hd]; rfl
  · intro hd
    simp only [queryResult, h]
    show dictGetD (.vdoc d) "matches" (.vlist []) = _
    simp only [dictGetD, hd]; rfl

/-- Witness for C10: a success body that is an empty JSON object. -/
theorem claim_C10_witness :
    findResult ⟨200, some (.vdoc []), "b"⟩ = .ok (.vlist []) ∧
    queryResult ⟨200, some (.vdoc []), "b"⟩ = .ok (.vlist []) :=
  ⟨(claim_C10 ⟨200, some (.vdoc []), "b"⟩ [] rfl).1 rfl,
   (claim_C10 ⟨200, some (.vdoc []), "b"⟩ [] rfl).2 rfl⟩

end CapyDB
